import Mathlib

/-!
Shallow embedding of the Order Simulation & Backtest Execution Engine of the
Backtester-Backend repository, together with theorems settling the frozen
claims about it.

The embedding covers:
* `src/brokers/paper_executor.py` — `PaperExecutor` with `place_order`,
  `process_price_update`, `_check_order_fill`, `_execute_fill`,
  `_update_unrealized_pnl`, `_record_equity`, `cancel_order`,
  `cancel_all_orders`;
* `src/core/base.py` — the summary-metric arithmetic of
  `StrategyBase.save_backtest_results` (win rate, average trade PnL, Sharpe
  ratio) and the bar loop of `StrategyBase.run`.

Python floats are modelled as exact rationals (`ℚ`); `** 0.5` is modelled as
`Real.sqrt` on `ℝ`.  Python dicts (`self.orders`, `self.positions`) are
modelled as insertion-ordered association lists, which preserves both the
key-lookup semantics and the iteration order of `dict.items()` /
`dict.values()`.  `datetime` timestamps are modelled as opaque naturals; they
are carried through but never inspected by the engine's arithmetic.
-/

namespace Backtester

/-- First-match lookup in an insertion-ordered association list
(Python `d[k]` / `k in d`). -/
def dictGet (k : String) : List (String × α) → Option α
  | [] => none
  | (k', v) :: rest => if k' = k then some v else dictGet k rest

/-- In-place update of the binding of `k`, if present
(Python attribute mutation of the object stored at key `k`). -/
def dictUpdate (k : String) (f : α → α) : List (String × α) → List (String × α)
  | [] => []
  | (k', v) :: rest =>
      if k' = k then (k', f v) :: rest else (k', v) :: dictUpdate k f rest

/-- Entry-wise value map (Python `for v in d.values(): mutate v`). -/
def mapVals (g : α → α) (l : List (String × α)) : List (String × α) :=
  l.map (fun kv => (kv.1, g kv.2))

/-- `Order` dataclass of `paper_executor.py`.  The `timestamp` field
(`datetime.now()` creation time, never read by the engine) is omitted. -/
structure Order where
  id : String
  symbol : String
  side : String
  quantity : Int
  order_type : String
  limit_price : Option ℚ := none
  stop_loss : Option ℚ := none
  take_profit : Option ℚ := none
  status : String := "pending"
  filled_price : Option ℚ := none
  filled_quantity : Int := 0
  commission : ℚ := 0
deriving Repr, DecidableEq

/-- `Position` dataclass of `paper_executor.py`. -/
structure Position where
  symbol : String
  quantity : Int := 0
  avg_price : ℚ := 0
  unrealized_pnl : ℚ := 0
  realized_pnl : ℚ := 0
  last_price : ℚ := 0
deriving Repr, DecidableEq

/-- One entry of `PaperExecutor.trades` (per-fill execution record). -/
structure TradeRec where
  order_id : String
  symbol : String
  side : String
  quantity : Int
  price : ℚ
  commission : ℚ
  timestamp : Nat
deriving Repr, DecidableEq

/-- One entry of `PaperExecutor.equity_history`. -/
structure EquityRec where
  timestamp : Nat
  equity : ℚ
  cash : ℚ
  unrealized_pnl : ℚ
deriving Repr, DecidableEq

/-- State of `PaperExecutor`. -/
structure PaperExecutor where
  starting_cash : ℚ
  cash : ℚ
  positions : List (String × Position) := []
  orders : List (String × Order) := []
  order_id_counter : Nat := 0
  trades : List TradeRec := []
  equity_history : List EquityRec := []
  commission_rate : ℚ := 0
  slippage_rate : ℚ := 0
deriving Repr, DecidableEq

/-- `PaperExecutor.__init__` (config defaults: 100000 cash, commission 0,
slippage 0). -/
def initExecutor (starting_cash commission_rate slippage_rate : ℚ) :
    PaperExecutor :=
  { starting_cash := starting_cash
    cash := starting_cash
    commission_rate := commission_rate
    slippage_rate := slippage_rate }

/-- Zero padding of `f"PAPER_{n:06d}"`. -/
def pad6 (n : Nat) : String :=
  (String.mk (List.replicate (6 - (toString n).length) '0')) ++ toString n

/-- `PaperExecutor.generate_order_id`: bumps the counter and returns the id. -/
def generate_order_id (s : PaperExecutor) : PaperExecutor × String :=
  ({ s with order_id_counter := s.order_id_counter + 1 },
   "PAPER_" ++ pad6 (s.order_id_counter + 1))

/-- The distinct `ValueError`s raised by `PaperExecutor.place_order`. -/
inductive PlaceError
  | invalidSide
  | missingLimitPrice
  | nonPositiveQuantity
  | insufficientCashEstimate
deriving Repr, DecidableEq

/-- Success payload of `PaperExecutor.place_order` (the returned dict,
restricted to the fields not echoed verbatim from the arguments). -/
structure PlaceResult where
  order_id : String
  status : String
deriving Repr, DecidableEq

/-- `PaperExecutor.place_order`.  The state is returned on the error path as
well, because the Python method mutates `order_id_counter` (inside
`generate_order_id`) before any validation runs, and that mutation survives
the raised exception. -/
def place_order (s : PaperExecutor) (symbol side : String) (quantity : Int)
    (order_type : String) (limit_price stop_loss take_profit : Option ℚ) :
    PaperExecutor × Except PlaceError PlaceResult :=
  let si := (generate_order_id s).1
  let order_id := (generate_order_id s).2
  if ¬ (side = "buy" ∨ side = "sell") then
    (si, .error .invalidSide)
  else if order_type = "limit" ∧ limit_price = none then
    (si, .error .missingLimitPrice)
  else if quantity ≤ 0 then
    (si, .error .nonPositiveQuantity)
  else if side = "buy" ∧ order_type = "market" ∧ si.cash < (quantity : ℚ) * 100 then
    (si, .error .insufficientCashEstimate)
  else
    let order : Order :=
      { id := order_id, symbol := symbol, side := side, quantity := quantity
        order_type := order_type, limit_price := limit_price
        stop_loss := stop_loss, take_profit := take_profit }
    ({ si with orders := si.orders ++ [(order_id, order)] },
     .ok { order_id := order_id, status := "pending" })

/-- `PaperExecutor._execute_fill`.  `oid` is the dict key under which `order`
is stored (always `order.id` for states reachable through the public API);
the Python code mutates the shared order object, which the embedding renders
as an in-place update at that key. -/
def execute_fill (s : PaperExecutor) (oid : String) (order : Order)
    (fill_price : ℚ) (fill_quantity : Int) (timestamp : Nat) : PaperExecutor :=
  let commission := fill_price * (fill_quantity : ℚ) * s.commission_rate
  if order.side = "buy" ∧ s.cash < fill_price * (fill_quantity : ℚ) + commission then
    { s with orders := dictUpdate oid (fun o => { o with status := "rejected" }) s.orders }
  else
    let s1 :=
      if order.side = "buy" then
        { s with cash := s.cash - (fill_price * (fill_quantity : ℚ) + commission) }
      else
        { s with cash := s.cash + (fill_price * (fill_quantity : ℚ) - commission) }
    let s2 :=
      if (dictGet order.symbol s1.positions).isSome then s1
      else { s1 with positions := s1.positions ++ [(order.symbol, { symbol := order.symbol })] }
    let s3 := { s2 with positions := dictUpdate order.symbol (fun p =>
        if order.side = "buy" then
          let total_cost := (p.quantity : ℚ) * p.avg_price + (fill_quantity : ℚ) * fill_price
          let total_quantity := p.quantity + fill_quantity
          { p with
            avg_price := if total_quantity > 0 then total_cost / (total_quantity : ℚ) else 0
            quantity := p.quantity + fill_quantity }
        else
          let p1 :=
            if p.quantity > 0 then
              { p with realized_pnl :=
                  p.realized_pnl + (fill_price - p.avg_price) * ((min fill_quantity p.quantity : Int) : ℚ) }
            else p
          if p1.quantity - fill_quantity ≤ 0 then
            { p1 with quantity := 0, avg_price := 0 }
          else
            { p1 with quantity := p1.quantity - fill_quantity }) s2.positions }
    let s4 := { s3 with orders := dictUpdate oid (fun o =>
        { o with
          filled_price := some fill_price
          filled_quantity := fill_quantity
          commission := commission
          status := "filled" }) s3.orders }
    { s4 with trades := s4.trades ++
        [{ order_id := order.id, symbol := order.symbol, side := order.side
           quantity := fill_quantity, price := fill_price
           commission := commission, timestamp := timestamp }] }

/-- `PaperExecutor._check_order_fill`. -/
def check_order_fill (s : PaperExecutor) (oid : String) (order : Order)
    (current_price : ℚ) (timestamp : Nat) : PaperExecutor :=
  let hit : Option (ℚ × Int) :=
    if order.order_type = "market" then some (current_price, order.quantity)
    else if order.order_type = "limit" then
      match order.limit_price with
      | some lp =>
          if order.side = "buy" ∧ current_price ≤ lp then some (lp, order.quantity)
          else if order.side = "sell" ∧ current_price ≥ lp then some (lp, order.quantity)
          else none
      | none => none
    else none
  match hit with
  | none => s
  | some (fp, fq) =>
      let fp' := if order.side = "buy" then fp * (1 + s.slippage_rate)
                 else fp * (1 - s.slippage_rate)
      execute_fill s oid order fp' fq timestamp

/-- One iteration of the pending-order loop of
`PaperExecutor.process_price_update`: re-reads the order stored under `oid`
in the current state and evaluates it when it is a pending order on
`symbol`. -/
def fill_step (symbol : String) (price : ℚ) (timestamp : Nat)
    (st : PaperExecutor) (oid : String) : PaperExecutor :=
  match dictGet oid st.orders with
  | some o =>
      if o.symbol = symbol ∧ o.status = "pending" then
        check_order_fill st oid o price timestamp
      else st
  | none => st

/-- `PaperExecutor._update_unrealized_pnl`. -/
def update_unrealized_pnl (s : PaperExecutor) : PaperExecutor :=
  { s with positions := mapVals (fun p =>
      if p.quantity ≠ 0 ∧ p.last_price > 0 then
        if p.quantity > 0 then
          { p with unrealized_pnl := (p.last_price - p.avg_price) * (p.quantity : ℚ) }
        else
          { p with unrealized_pnl := (p.avg_price - p.last_price) * ((p.quantity.natAbs : Nat) : ℚ) }
      else p) s.positions }

/-- `PaperExecutor._record_equity`. -/
def record_equity (s : PaperExecutor) (timestamp : Nat) : PaperExecutor :=
  let total_unreal := (s.positions.map (fun kp => kp.2.unrealized_pnl)).sum
  { s with equity_history := s.equity_history ++
      [{ timestamp := timestamp, equity := s.cash + total_unreal
         cash := s.cash, unrealized_pnl := total_unreal }] }

/-- The opening step of `PaperExecutor.process_price_update`:
`if symbol in self.positions: self.positions[symbol].last_price = price`. -/
def touch_last_price (s : PaperExecutor) (symbol : String) (price : ℚ) :
    PaperExecutor :=
  if (dictGet symbol s.positions).isSome then
    { s with positions := dictUpdate symbol (fun p => { p with last_price := price }) s.positions }
  else s

/-- `PaperExecutor.process_price_update`. -/
def process_price_update (s : PaperExecutor) (symbol : String) (price : ℚ)
    (timestamp : Nat) : PaperExecutor :=
  let s1 := touch_last_price s symbol price
  let s2 := (s1.orders.map Prod.fst).foldl (fill_step symbol price timestamp) s1
  record_equity (update_unrealized_pnl s2) timestamp

/-- `PaperExecutor.cancel_order`. -/
def cancel_order (s : PaperExecutor) (order_id : String) :
    PaperExecutor × Bool :=
  match dictGet order_id s.orders with
  | some o =>
      if o.status = "pending" then
        ({ s with orders := dictUpdate order_id (fun o' => { o' with status := "cancelled" }) s.orders },
         true)
      else (s, false)
  | none => (s, false)

/-- `PaperExecutor.cancel_all_orders`. -/
def cancel_all_orders (s : PaperExecutor) (symbol : Option String) :
    PaperExecutor × Nat :=
  ({ s with orders := mapVals (fun o =>
      if o.status = "pending" ∧ (symbol = none ∨ symbol = some o.symbol) then
        { o with status := "cancelled" }
      else o) s.orders },
   (s.orders.filter (fun ko =>
      ko.2.status = "pending" ∧ (symbol = none ∨ symbol = some ko.2.symbol))).length)

/-- The three mutating operations a driver can issue against a
`PaperExecutor` after orders are placed. -/
inductive ExecOp
  | update (symbol : String) (price : ℚ) (timestamp : Nat)
  | cancel (order_id : String)
  | cancelAll (symbol : Option String)

/-- Apply one operation, discarding the operation's return value. -/
def applyOp (s : PaperExecutor) : ExecOp → PaperExecutor
  | .update sym p t => process_price_update s sym p t
  | .cancel oid => (cancel_order s oid).1
  | .cancelAll sym => (cancel_all_orders s sym).1

/-- Apply a sequence of operations in order. -/
def applyOps (s : PaperExecutor) (ops : List ExecOp) : PaperExecutor :=
  ops.foldl applyOp s

/-! ### Summary metrics of `StrategyBase.save_backtest_results` (`src/core/base.py`)

The metric code reads only the `pnl` field of each recorded trade and the
equity value of each equity-curve point, so the embedding takes a `List ℚ` of
trade PnLs and a `List ℚ` of equity values. -/

/-- `winning_trades = len([t for t in self.trades if t.pnl > 0])`. -/
def winning_trades (pnls : List ℚ) : Nat :=
  (pnls.filter (fun p => p > 0)).length

/-- `win_rate = (winning_trades / total_trades * 100) if total_trades > 0 else 0`. -/
def win_rate (pnls : List ℚ) : ℚ :=
  if pnls.length > 0 then
    ((winning_trades pnls : Nat) : ℚ) / ((pnls.length : Nat) : ℚ) * 100
  else 0

/-- `total_pnl = sum(t.pnl for t in self.trades)`. -/
def total_pnl (pnls : List ℚ) : ℚ := pnls.sum

/-- `average_trade_pnl = total_pnl / total_trades if total_trades > 0 else 0`. -/
def average_trade_pnl (pnls : List ℚ) : ℚ :=
  if pnls.length > 0 then total_pnl pnls / ((pnls.length : Nat) : ℚ) else 0

/-- The returns loop of the Sharpe computation:
`for i in range(1, len(ec)): returns.append((ec[i]-ec[i-1])/ec[i-1] if ec[i-1] > 0 else 0)`. -/
def sharpe_returns : List ℚ → List ℚ
  | prev :: curr :: rest =>
      (if prev > 0 then (curr - prev) / prev else 0) :: sharpe_returns (curr :: rest)
  | _ => []

/-- `avg_return = sum(returns) / len(returns)`. -/
def mean_return (rs : List ℚ) : ℚ := rs.sum / ((rs.length : Nat) : ℚ)

/-- `sum((r - avg_return) ** 2 for r in returns) / len(returns)` — the radicand
of the `** 0.5` in the code (a population variance). -/
def variance_return (rs : List ℚ) : ℚ :=
  (rs.map (fun r => (r - mean_return rs) ^ 2)).sum / ((rs.length : Nat) : ℚ)

/-- `sharpe_ratio` exactly as `save_backtest_results` computes it, with the
float `** 0.5` modelled as `Real.sqrt`. -/
noncomputable def sharpe_ratio (ec : List ℚ) : ℝ :=
  if ec.length > 1 then
    let rs := sharpe_returns ec
    if rs ≠ [] then
      let std : ℝ := Real.sqrt ((variance_return rs : ℚ) : ℝ)
      if std > 0 then ((mean_return rs : ℚ) : ℝ) / std else 0
    else 0
  else 0

/-- The Sharpe computation as the specification words it: simple
period-over-period returns from consecutive equity points, **skipping** a pair
when the earlier equity is 0, then mean over standard deviation, 0 when the
standard deviation is 0 or fewer than 2 returns exist. -/
noncomputable def sharpe_ratio_specified (ec : List ℚ) : ℝ :=
  let rs := (ec.zip ec.tail).filterMap (fun pc =>
    if pc.1 = 0 then none else some ((pc.2 - pc.1) / pc.1))
  if rs.length < 2 then 0
  else
    let std : ℝ := Real.sqrt ((variance_return rs : ℚ) : ℝ)
    if std = 0 then 0 else ((mean_return rs : ℚ) : ℝ) / std

/-- The Sharpe computation as amended to match the code: a return is produced
for every consecutive pair, with value 0 (not skipped) whenever the earlier
equity is not strictly positive; the denominator is the population standard
deviation of those returns; the result is 0 when no pair exists or the
standard deviation is 0. -/
noncomputable def sharpe_ratio_amended (ec : List ℚ) : ℝ :=
  let rs := (ec.zip ec.tail).map (fun pc =>
    if pc.1 > 0 then (pc.2 - pc.1) / pc.1 else 0)
  if rs = [] then 0
  else
    let std : ℝ := Real.sqrt ((variance_return rs : ℚ) : ℝ)
    if std > 0 then ((mean_return rs : ℚ) : ℝ) / std else 0

/-! ### The bar loop of `StrategyBase.run` (`src/core/base.py`) -/

/-- One OHLCV bar, reduced to the fields the run loop hands on. -/
structure Bar where
  timestamp : Nat
  close : ℚ
deriving Repr, DecidableEq

/-- The result-tracking state of a `StrategyBase` instance, plus a log of the
run ids handed to persistence by `save_backtest_results`. -/
structure StrategyState where
  equity_curve : List (Nat × ℚ) := []
  trades : List ℚ := []
  initial_capital : ℚ := 0
  current_equity : ℚ := 0
  saved : List String := []
deriving Repr, DecidableEq

/-- `StrategyBase.update_equity`. -/
def update_equity (st : StrategyState) (timestamp : Nat) (equity : ℚ) :
    StrategyState :=
  { st with
    equity_curve := st.equity_curve ++ [(timestamp, equity)]
    current_equity := equity }

/-- The persistence effect of `StrategyBase.save_backtest_results`: the run id
is recorded (JSON file + database row) and returned. -/
def save_backtest_results (st : StrategyState) (run_id : String) :
    StrategyState × String :=
  ({ st with saved := st.saved ++ [run_id] }, run_id)

/-- The per-bar loop of `StrategyBase.run`: `on_bar` then `update_equity`.
An exception from the strategy callback propagates, preserving the state
mutated so far. -/
def run_loop (onBar : StrategyState → Bar → Except String StrategyState) :
    List Bar → StrategyState → StrategyState × Option String
  | [], st => (st, none)
  | b :: rest, st =>
      match onBar st b with
      | .error e => (st, some e)
      | .ok st' => run_loop onBar rest (update_equity st' b.timestamp st'.current_equity)

/-- `StrategyBase.run`, from the point where the historical data has been
fetched.  `data = none` models `get_historical_data` returning `None`,
`some []` models an empty DataFrame; in both cases the method logs and
returns `None` without touching the tracking state.  `run_id` stands for the
timestamp/uuid name `save_backtest_results` would generate. -/
def run (onBar : StrategyState → Bar → Except String StrategyState)
    (initial_capital : ℚ) (run_id : String) (data : Option (List Bar))
    (st : StrategyState) : StrategyState × Except String (Option String) :=
  match data with
  | none => (st, .ok none)
  | some bars =>
    if bars.isEmpty then (st, .ok none)
    else
      let st1 := { st with
        initial_capital := initial_capital
        current_equity := initial_capital
        equity_curve := []
        trades := [] }
      match run_loop onBar bars st1 with
      | (st2, some e) => (st2, .error e)
      | (st2, none) =>
          let saved := save_backtest_results st2 run_id
          (saved.1, .ok (some saved.2))

section Claims

/- The arithmetic of `Rat` is `@[irreducible]` in Batteries, which blocks
`decide`-style evaluation of concrete scenarios; restore default
reducibility inside this section so closed computations reduce. -/
attribute [local semireducible] Rat.mul Rat.add Rat.sub Rat.inv Rat.ofScientific

/-! ### Association-list lemmas -/

theorem dictGet_dictUpdate_self (k : String) (f : α → α) (l : List (String × α)) :
    dictGet k (dictUpdate k f l) = (dictGet k l).map f := by
  induction l with
  | nil => simp [dictGet, dictUpdate]
  | cons kv rest ih =>
      obtain ⟨k', v⟩ := kv
      by_cases h : k' = k <;> simp [dictGet, dictUpdate, h, ih]

theorem dictGet_dictUpdate_ne (kg ku : String) (h : kg ≠ ku) (f : α → α)
    (l : List (String × α)) :
    dictGet kg (dictUpdate ku f l) = dictGet kg l := by
  induction l with
  | nil => simp [dictUpdate]
  | cons kv rest ih =>
      obtain ⟨k', v⟩ := kv
      by_cases h' : k' = ku
      · subst h'
        simp [dictGet, dictUpdate, Ne.symm h]
      · by_cases h'' : k' = kg <;> simp [dictGet, dictUpdate, h, h', h'', ih]

theorem dictGet_append_some (k : String) (l l' : List (String × α)) (v : α)
    (h : dictGet k l = some v) : dictGet k (l ++ l') = some v := by
  induction l with
  | nil => simp [dictGet] at h
  | cons kv rest ih =>
      obtain ⟨k', v'⟩ := kv
      by_cases h' : k' = k
      · simp [dictGet, h'] at h ⊢
        exact h
      · simp [dictGet, h'] at h ⊢
        exact ih h

theorem dictGet_append_none (k : String) (l l' : List (String × α))
    (h : dictGet k l = none) : dictGet k (l ++ l') = dictGet k l' := by
  induction l with
  | nil => simp
  | cons kv rest ih =>
      obtain ⟨k', v'⟩ := kv
      by_cases h' : k' = k
      · simp [dictGet, h'] at h
      · simp [dictGet, h'] at h ⊢
        exact ih h

theorem dictGet_mapVals (k : String) (g : α → α) (l : List (String × α)) :
    dictGet k (mapVals g l) = (dictGet k l).map g := by
  induction l with
  | nil => simp [dictGet, mapVals]
  | cons kv rest ih =>
      obtain ⟨k', v⟩ := kv
      by_cases h : k' = k <;> simp [dictGet, mapVals, h] <;> exact ih

theorem foldl_preserves {σ α : Type _} (f : σ → α → σ) (P : σ → Prop)
    (h : ∀ s a, P s → P (f s a)) :
    ∀ (l : List α) (s : σ), P s → P (l.foldl f s) := by
  intro l
  induction l with
  | nil => intro s hs; simpa using hs
  | cons a rest ih => intro s hs; exact ih _ (h s a hs)

/-! ### Frame lemmas for the executor operations -/

theorem execute_fill_orders_ne (s : PaperExecutor) (oid : String) (o : Order)
    (fp : ℚ) (fq : Int) (t : Nat) (k : String) (h : k ≠ oid) :
    dictGet k (execute_fill s oid o fp fq t).orders = dictGet k s.orders := by
  simp [execute_fill, apply_ite PaperExecutor.orders, apply_ite (dictGet k),
    dictGet_dictUpdate_ne k oid h]

theorem check_order_fill_orders_ne (s : PaperExecutor) (oid : String)
    (o : Order) (p : ℚ) (t : Nat) (k : String) (h : k ≠ oid) :
    dictGet k (check_order_fill s oid o p t).orders = dictGet k s.orders := by
  unfold check_order_fill
  repeat' split
  all_goals first
    | rfl
    | exact execute_fill_orders_ne _ _ _ _ _ _ _ h

theorem touch_last_price_orders (s : PaperExecutor) (sym : String) (p : ℚ) :
    (touch_last_price s sym p).orders = s.orders := by
  simp [touch_last_price, apply_ite PaperExecutor.orders]

theorem touch_last_price_cash (s : PaperExecutor) (sym : String) (p : ℚ) :
    (touch_last_price s sym p).cash = s.cash := by
  simp [touch_last_price, apply_ite PaperExecutor.cash]

theorem touch_last_price_slippage (s : PaperExecutor) (sym : String) (p : ℚ) :
    (touch_last_price s sym p).slippage_rate = s.slippage_rate := by
  simp [touch_last_price, apply_ite PaperExecutor.slippage_rate]

theorem touch_last_price_commission (s : PaperExecutor) (sym : String) (p : ℚ) :
    (touch_last_price s sym p).commission_rate = s.commission_rate := by
  simp [touch_last_price, apply_ite PaperExecutor.commission_rate]

theorem fill_step_preserves_order (sym : String) (price : ℚ) (t : Nat)
    (oid : String) (o : Order) (hterm : o.status ≠ "pending")
    (st : PaperExecutor) (oid' : String)
    (h : dictGet oid st.orders = some o) :
    dictGet oid (fill_step sym price t st oid').orders = some o := by
  unfold fill_step
  split
  next o' hlk =>
    by_cases heq : oid' = oid
    · subst heq
      rw [h] at hlk
      injection hlk with he
      subst he
      simp only [hterm, and_false, if_false]
      exact h
    · split
      · exact (check_order_fill_orders_ne st oid' o' price t oid
          (fun hc => heq hc.symm)).trans h
      · exact h
  next => exact h

theorem process_price_update_preserves_order (s : PaperExecutor)
    (sym : String) (price : ℚ) (t : Nat) (oid : String) (o : Order)
    (hterm : o.status ≠ "pending") (h : dictGet oid s.orders = some o) :
    dictGet oid (process_price_update s sym price t).orders = some o := by
  unfold process_price_update
  refine foldl_preserves (fill_step sym price t)
    (fun st => dictGet oid st.orders = some o)
    (fun st a hst => fill_step_preserves_order sym price t oid o hterm st a hst)
    _ _ ?_
  show dictGet oid (touch_last_price s sym price).orders = some o
  rw [touch_last_price_orders]
  exact h

theorem cancel_order_nonpending (s : PaperExecutor) (oid : String) (o : Order)
    (h : dictGet oid s.orders = some o) (hterm : o.status ≠ "pending") :
    cancel_order s oid = (s, false) := by
  unfold cancel_order
  rw [h]
  simp [hterm]

theorem cancel_order_preserves_order (s : PaperExecutor) (oid' oid : String)
    (o : Order) (hterm : o.status ≠ "pending")
    (h : dictGet oid s.orders = some o) :
    dictGet oid (cancel_order s oid').1.orders = some o := by
  unfold cancel_order
  split
  next o' hlk =>
    by_cases heq : oid' = oid
    · subst heq
      rw [h] at hlk
      injection hlk with he
      subst he
      simp only [hterm, if_false]
      exact h
    · split
      · exact (dictGet_dictUpdate_ne oid oid' (fun hc => heq hc.symm) _ _).trans h
      · exact h
  next => exact h

theorem cancel_all_preserves_order (s : PaperExecutor) (sym : Option String)
    (oid : String) (o : Order) (hterm : o.status ≠ "pending")
    (h : dictGet oid s.orders = some o) :
    dictGet oid (cancel_all_orders s sym).1.orders = some o := by
  unfold cancel_all_orders
  simp [dictGet_mapVals, h, hterm]

theorem applyOp_preserves_order (s : PaperExecutor) (op : ExecOp)
    (oid : String) (o : Order) (hterm : o.status ≠ "pending")
    (h : dictGet oid s.orders = some o) :
    dictGet oid (applyOp s op).orders = some o := by
  cases op with
  | update sym p t => exact process_price_update_preserves_order s sym p t oid o hterm h
  | cancel oid' => exact cancel_order_preserves_order s oid' oid o hterm h
  | cancelAll sym => exact cancel_all_preserves_order s sym oid o hterm h

/-- C4 — Terminal order states are absorbing: an order whose status is
`filled`, `cancelled` or `rejected` is never changed again by any sequence of
`process_price_update` / `cancel_order` / `cancel_all_orders` operations (its
entire record is preserved, so only pending orders are ever evaluated), and
`cancel_order` on an already-filled or already-cancelled order returns `false`
and leaves the whole executor state (orders, cash, positions) unchanged. -/
theorem claim_C4_terminal_absorbing (s : PaperExecutor) (ops : List ExecOp)
    (oid : String) (o : Order)
    (hget : dictGet oid s.orders = some o)
    (hterm : o.status = "filled" ∨ o.status = "cancelled" ∨ o.status = "rejected") :
    dictGet oid (applyOps s ops).orders = some o ∧
    ((o.status = "filled" ∨ o.status = "cancelled") →
      cancel_order s oid = (s, false)) := by
  have hnp : o.status ≠ "pending" := by
    rcases hterm with h | h | h <;> rw [h] <;> decide
  constructor
  · exact foldl_preserves applyOp (fun st => dictGet oid st.orders = some o)
      (fun st op hst => applyOp_preserves_order st op oid o hnp hst) ops s hget
  · intro _
    exact cancel_order_nonpending s oid o hget hnp

/-- Witness for C4 at a concrete executor: one filled order, exposed to a
price update, a cancel and a cancel-all. -/
theorem claim_C4_terminal_absorbing_witness :
    dictGet "A"
      (applyOps
        { starting_cash := 1000, cash := 1000
          orders := [("A",
            { id := "A", symbol := "S", side := "buy", quantity := 1
              order_type := "market", status := "filled" })] }
        [ExecOp.update "S" 5 1, ExecOp.cancel "A", ExecOp.cancelAll none]).orders =
      some
        { id := "A", symbol := "S", side := "buy", quantity := 1
          order_type := "market", status := "filled" } ∧
    ((Order.status
        { id := "A", symbol := "S", side := "buy", quantity := 1
          order_type := "market", status := "filled" } = "filled" ∨
      Order.status
        { id := "A", symbol := "S", side := "buy", quantity := 1
          order_type := "market", status := "filled" } = "cancelled") →
      cancel_order
        { starting_cash := 1000, cash := 1000
          orders := [("A",
            { id := "A", symbol := "S", side := "buy", quantity := 1
              order_type := "market", status := "filled" })] } "A" =
      ({ starting_cash := 1000, cash := 1000
         orders := [("A",
           { id := "A", symbol := "S", side := "buy", quantity := 1
             order_type := "market", status := "filled" })] }, false)) :=
  claim_C4_terminal_absorbing _ _ _ _ (by decide) (Or.inl (by decide))

theorem execute_fill_buy_fills (s : PaperExecutor) (oid : String) (o : Order)
    (fp : ℚ) (fq : Int) (t : Nat) (hside : o.side = "buy")
    (hcash : fp * (fq : ℚ) + fp * (fq : ℚ) * s.commission_rate ≤ s.cash)
    (h : dictGet oid s.orders = some o) :
    dictGet oid (execute_fill s oid o fp fq t).orders =
      some { o with status := "filled", filled_price := some fp
                    filled_quantity := fq
                    commission := fp * (fq : ℚ) * s.commission_rate } := by
  unfold execute_fill
  rw [if_neg (by
    rintro ⟨_, hlt⟩
    exact absurd hcash (not_le.mpr hlt))]
  simp [apply_ite PaperExecutor.orders, dictGet_dictUpdate_self, h]

theorem check_order_fill_limit_buy_fill (s : PaperExecutor) (oid : String)
    (o : Order) (lp price : ℚ) (t : Nat) (hside : o.side = "buy")
    (htype : o.order_type = "limit") (hlp : o.limit_price = some lp)
    (hle : price ≤ lp) :
    check_order_fill s oid o price t =
      execute_fill s oid o (lp * (1 + s.slippage_rate)) o.quantity t := by
  unfold check_order_fill
  simp [htype, hlp, hside, hle]

theorem check_order_fill_limit_buy_no_fill (s : PaperExecutor) (oid : String)
    (o : Order) (lp price : ℚ) (t : Nat) (hside : o.side = "buy")
    (htype : o.order_type = "limit") (hlp : o.limit_price = some lp)
    (hgt : ¬ price ≤ lp) :
    check_order_fill s oid o price t = s := by
  unfold check_order_fill
  simp [htype, hlp, hside, hgt]

theorem record_equity_unrealized_orders (x : PaperExecutor) (t : Nat) :
    (record_equity (update_unrealized_pnl x) t).orders = x.orders := rfl

/-- C2 — Limit-order fill timing and price: a pending limit BUY order exposed
to a price update (slippage 0, sufficient cash) fills exactly when
`price ≤ limit_price`, at fill price `limit_price` (not the tick price); when
`price > limit_price` the order record is untouched (still pending); once
filled, no later price update ever re-evaluates or changes it; and concretely
a limit BUY 10 @ 145.00 fed closes [148, 146, 144.5, 143] fills on the 144.5
tick at 145.00, not earlier, not later. -/
theorem claim_C2_limit_buy_fill_timing
    (s : PaperExecutor) (oid : String) (o : Order) (lp price : ℚ)
    (sym : String) (t : Nat)
    (hslip : s.slippage_rate = 0)
    (horders : s.orders = [(oid, o)])
    (hside : o.side = "buy") (htype : o.order_type = "limit")
    (hlp : o.limit_price = some lp) (hpend : o.status = "pending")
    (hsym : o.symbol = sym)
    (hcash : lp * (o.quantity : ℚ) + lp * (o.quantity : ℚ) * s.commission_rate ≤ s.cash) :
    (price ≤ lp →
      dictGet oid (process_price_update s sym price t).orders =
        some { o with status := "filled", filled_price := some lp
                      filled_quantity := o.quantity
                      commission := lp * (o.quantity : ℚ) * s.commission_rate }) ∧
    (¬ price ≤ lp →
      dictGet oid (process_price_update s sym price t).orders = some o) ∧
    (∀ (s' : PaperExecutor) (o' : Order) (sym' : String) (price' : ℚ) (t' : Nat),
      dictGet oid s'.orders = some o' → o'.status = "filled" →
      dictGet oid (process_price_update s' sym' price' t').orders = some o') ∧
    (let b1 := (place_order (initExecutor 100000 0 0) "MSFT" "buy" 10 "limit"
        (some 145) none none).1
     let b2 := process_price_update b1 "MSFT" 148 1
     let b3 := process_price_update b2 "MSFT" 146 2
     let b4 := process_price_update b3 "MSFT" (mkRat 289 2) 3
     let b5 := process_price_update b4 "MSFT" 143 4
     (dictGet "PAPER_000001" b2.orders).map Order.status = some "pending" ∧
     (dictGet "PAPER_000001" b3.orders).map Order.status = some "pending" ∧
     (dictGet "PAPER_000001" b4.orders).map
        (fun od => (od.status, od.filled_price)) = some ("filled", some 145) ∧
     (dictGet "PAPER_000001" b5.orders).map
        (fun od => (od.status, od.filled_price)) = some ("filled", some 145)) := by
  have h1 : (touch_last_price s sym price).orders = [(oid, o)] := by
    rw [touch_last_price_orders, horders]
  have h2 : dictGet oid (touch_last_price s sym price).orders = some o := by
    rw [h1]; simp [dictGet]
  refine ⟨?_, ?_, ?_, ?_⟩
  · intro hle
    unfold process_price_update
    rw [record_equity_unrealized_orders, h1]
    simp only [List.map_cons, List.map_nil, List.foldl_cons, List.foldl_nil]
    unfold fill_step
    rw [h2]
    simp only [hsym, hpend, and_self, if_true]
    rw [check_order_fill_limit_buy_fill _ _ _ lp _ _ hside htype hlp hle]
    rw [touch_last_price_slippage, hslip]
    rw [show lp * (1 + (0 : ℚ)) = lp from by ring]
    have hc : lp * (o.quantity : ℚ) +
        lp * (o.quantity : ℚ) * (touch_last_price s sym price).commission_rate ≤
        (touch_last_price s sym price).cash := by
      rw [touch_last_price_commission, touch_last_price_cash]
      exact hcash
    rw [execute_fill_buy_fills _ _ _ _ _ _ hside hc h2]
    rw [touch_last_price_commission, hsym]
  · intro hgt
    unfold process_price_update
    rw [record_equity_unrealized_orders, h1]
    simp only [List.map_cons, List.map_nil, List.foldl_cons, List.foldl_nil]
    unfold fill_step
    rw [h2]
    simp only [hsym, hpend, and_self, if_true]
    rw [check_order_fill_limit_buy_no_fill _ _ _ lp _ _ hside htype hlp hgt]
    exact h2
  · intro s' o' sym' price' t' h' hf'
    exact process_price_update_preserves_order s' sym' price' t' oid o'
      (by rw [hf']; decide) h'
  · decide

/-- Witness for C2: the cash precondition holds and a qualifying tick at
price 144 fills the pending limit BUY 10 @ 145 at fill price 145. -/
theorem claim_C2_limit_buy_fill_timing_witness :
    ((145 : ℚ) * ((10 : Int) : ℚ) + 145 * ((10 : Int) : ℚ) * 0 ≤ 100000) ∧
    dictGet "OID"
      (process_price_update
        { starting_cash := 100000, cash := 100000
          orders := [("OID",
            { id := "OID", symbol := "M", side := "buy", quantity := 10
              order_type := "limit", limit_price := some 145 })] }
        "M" 144 7).orders =
      some
        { id := "OID", symbol := "M", side := "buy", quantity := 10
          order_type := "limit", limit_price := some 145, status := "filled"
          filled_price := some 145, filled_quantity := 10
          commission := 145 * ((10 : Int) : ℚ) * 0 } :=
  ⟨by norm_num,
   (claim_C2_limit_buy_fill_timing
      { starting_cash := 100000, cash := 100000
        orders := [("OID",
          { id := "OID", symbol := "M", side := "buy", quantity := 10
            order_type := "limit", limit_price := some 145 })] }
      "OID"
      { id := "OID", symbol := "M", side := "buy", quantity := 10
        order_type := "limit", limit_price := some 145 }
      145 144 "M" 7 rfl rfl rfl rfl rfl rfl rfl (by norm_num)).1
    (by norm_num)⟩

/-- C3 — Authoritative solvency check at fill time: a market buy order whose
total cost `fill_price × quantity + commission` exceeds the available cash at
the moment of fill transitions to status `rejected` (the embedding is a total
function — no exception escapes), and cash, positions (hence position
quantity, `avg_price` and `realized_pnl`), trades and equity history are all
left unchanged by the attempt. -/
theorem claim_C3_insufficient_cash_rejects (s : PaperExecutor) (oid : String)
    (o : Order) (fp : ℚ) (fq : Int) (t : Nat)
    (hside : o.side = "buy") (htype : o.order_type = "market")
    (hcash : s.cash < fp * (fq : ℚ) + fp * (fq : ℚ) * s.commission_rate)
    (h : dictGet oid s.orders = some o) :
    (execute_fill s oid o fp fq t).cash = s.cash ∧
    (execute_fill s oid o fp fq t).positions = s.positions ∧
    (execute_fill s oid o fp fq t).trades = s.trades ∧
    (execute_fill s oid o fp fq t).equity_history = s.equity_history ∧
    dictGet oid (execute_fill s oid o fp fq t).orders =
      some { o with status := "rejected" } := by
  unfold execute_fill
  rw [if_pos ⟨hside, hcash⟩]
  refine ⟨rfl, rfl, rfl, rfl, ?_⟩
  simp [dictGet_dictUpdate_self, h]

/-- Witness for C3: a market buy of 1 share at price 100 against cash 10 is
rejected and changes nothing. -/
theorem claim_C3_insufficient_cash_rejects_witness :
    ((10 : ℚ) < 100 * ((1 : Int) : ℚ) + 100 * ((1 : Int) : ℚ) * 0) ∧
    (execute_fill
      { starting_cash := 10, cash := 10
        orders := [("B",
          { id := "B", symbol := "S", side := "buy", quantity := 1
            order_type := "market" })] }
      "B"
      { id := "B", symbol := "S", side := "buy", quantity := 1
        order_type := "market" }
      100 1 3).cash = 10 ∧
    dictGet "B"
      (execute_fill
        { starting_cash := 10, cash := 10
          orders := [("B",
            { id := "B", symbol := "S", side := "buy", quantity := 1
              order_type := "market" })] }
        "B"
        { id := "B", symbol := "S", side := "buy", quantity := 1
          order_type := "market" }
        100 1 3).orders =
      some
        { id := "B", symbol := "S", side := "buy", quantity := 1
          order_type := "market", status := "rejected" } := by
  refine ⟨by norm_num, ?_, ?_⟩
  · exact (claim_C3_insufficient_cash_rejects
      { starting_cash := 10, cash := 10
        orders := [("B",
          { id := "B", symbol := "S", side := "buy", quantity := 1
            order_type := "market" })] }
      "B"
      { id := "B", symbol := "S", side := "buy", quantity := 1
        order_type := "market" }
      100 1 3 rfl rfl (by norm_num) rfl).1
  · exact (claim_C3_insufficient_cash_rejects
      { starting_cash := 10, cash := 10
        orders := [("B",
          { id := "B", symbol := "S", side := "buy", quantity := 1
            order_type := "market" })] }
      "B"
      { id := "B", symbol := "S", side := "buy", quantity := 1
        order_type := "market" }
      100 1 3 rfl rfl (by norm_num) rfl).2.2.2.2

/-- C10 — Oversell behavior of fill application: a sell fill whose quantity
exceeds the currently held quantity (including a sell with no open position)
still succeeds: cash is credited `fill_price × fill_quantity` minus the
commission on the full requested quantity, realized PnL accrues only
`(fill_price - avg_price) × min(fill_quantity, held_quantity)` (nothing when
flat), the position quantity is clamped to exactly 0 with `avg_price` reset
to 0, no error is raised and no short position is created, and the order is
marked filled. -/
theorem claim_C10_oversell_clamps (s : PaperExecutor) (oid : String)
    (o : Order) (fp : ℚ) (fq : Int) (t : Nat) (p0 : Position)
    (hside : o.side = "sell")
    (h : dictGet oid s.orders = some o)
    (hp0 : (dictGet o.symbol s.positions).getD { symbol := o.symbol } = p0)
    (hge : 0 ≤ p0.quantity) (hlt : p0.quantity < fq) :
    (execute_fill s oid o fp fq t).cash =
      s.cash + (fp * (fq : ℚ) - fp * (fq : ℚ) * s.commission_rate) ∧
    dictGet o.symbol (execute_fill s oid o fp fq t).positions =
      some { p0 with quantity := 0, avg_price := 0
                     realized_pnl := p0.realized_pnl +
                       (fp - p0.avg_price) * ((min fq p0.quantity : Int) : ℚ) } ∧
    dictGet oid (execute_fill s oid o fp fq t).orders =
      some { o with status := "filled", filled_price := some fp
                    filled_quantity := fq
                    commission := fp * (fq : ℚ) * s.commission_rate } := by
  have hfq : (0 : Int) ≤ fq := le_of_lt (lt_of_le_of_lt hge hlt)
  have h0 : (0 : ℚ) ≤ (fq : ℚ) := by exact_mod_cast hfq
  unfold execute_fill
  cases hpos : dictGet o.symbol s.positions with
  | some p =>
      have hp : p = p0 := by rw [hpos] at hp0; simpa using hp0
      subst hp
      simp [hside, hpos, dictGet_dictUpdate_self, h]
      rcases lt_or_eq_of_le hge with hq | hq
      · simp [hq, le_of_lt hlt]
      · simp [← hq, min_eq_right h0, hfq]
  | none =>
      rw [hpos] at hp0
      simp only [Option.getD_none] at hp0
      subst hp0
      simp [hside, hpos, dictGet_dictUpdate_self, h, dictGet_append_none, dictGet,
        min_eq_right h0, hfq]

/-- Witness for C10: selling 5 shares while holding 3 (held 3 < 5 requested)
credits cash for all 5, realizes PnL on the 3 held, and clamps the position
to zero. -/
theorem claim_C10_oversell_clamps_witness :
    (execute_fill
      { starting_cash := 1000, cash := 1000
        positions := [("S", { symbol := "S", quantity := 3, avg_price := 10
                              realized_pnl := 5 })]
        orders := [("D",
          { id := "D", symbol := "S", side := "sell", quantity := 5
            order_type := "market" })] }
      "D"
      { id := "D", symbol := "S", side := "sell", quantity := 5
        order_type := "market" }
      12 5 9).cash = 1000 + (12 * ((5 : Int) : ℚ) - 12 * ((5 : Int) : ℚ) * 0) ∧
    dictGet "S"
      (execute_fill
        { starting_cash := 1000, cash := 1000
          positions := [("S", { symbol := "S", quantity := 3, avg_price := 10
                                realized_pnl := 5 })]
          orders := [("D",
            { id := "D", symbol := "S", side := "sell", quantity := 5
              order_type := "market" })] }
        "D"
        { id := "D", symbol := "S", side := "sell", quantity := 5
          order_type := "market" }
        12 5 9).positions =
      some { symbol := "S", quantity := 0, avg_price := 0
             realized_pnl := 5 + (12 - 10) * ((min (5 : Int) 3 : Int) : ℚ) } ∧
    dictGet "D"
      (execute_fill
        { starting_cash := 1000, cash := 1000
          positions := [("S", { symbol := "S", quantity := 3, avg_price := 10
                                realized_pnl := 5 })]
          orders := [("D",
            { id := "D", symbol := "S", side := "sell", quantity := 5
              order_type := "market" })] }
        "D"
        { id := "D", symbol := "S", side := "sell", quantity := 5
          order_type := "market" }
        12 5 9).orders =
      some
        { id := "D", symbol := "S", side := "sell", quantity := 5
          order_type := "market", status := "filled", filled_price := some 12
          filled_quantity := 5, commission := 12 * ((5 : Int) : ℚ) * 0 } :=
  claim_C10_oversell_clamps
    { starting_cash := 1000, cash := 1000
      positions := [("S", { symbol := "S", quantity := 3, avg_price := 10
                            realized_pnl := 5 })]
      orders := [("D",
        { id := "D", symbol := "S", side := "sell", quantity := 5
          order_type := "market" })] }
    "D"
    { id := "D", symbol := "S", side := "sell", quantity := 5
      order_type := "market" }
    12 5 9
    { symbol := "S", quantity := 3, avg_price := 10, realized_pnl := 5 }
    rfl (by decide) (by decide) (by decide) (by decide)

theorem execute_fill_buy_position (s : PaperExecutor) (oid : String) (o : Order)
    (fp : ℚ) (fq : Int) (t : Nat) (p0 : Position)
    (hside : o.side = "buy")
    (hcash : fp * (fq : ℚ) + fp * (fq : ℚ) * s.commission_rate ≤ s.cash)
    (hp0 : (dictGet o.symbol s.positions).getD { symbol := o.symbol } = p0) :
    dictGet o.symbol (execute_fill s oid o fp fq t).positions =
      some { p0 with
        avg_price := if 0 < p0.quantity + fq then
            ((p0.quantity : ℚ) * p0.avg_price + (fq : ℚ) * fp) / ((p0.quantity + fq : Int) : ℚ)
          else 0
        quantity := p0.quantity + fq } ∧
    (execute_fill s oid o fp fq t).cash =
      s.cash - (fp * (fq : ℚ) + fp * (fq : ℚ) * s.commission_rate) := by
  unfold execute_fill
  rw [if_neg (by rintro ⟨_, hlt⟩; exact absurd hcash (not_le.mpr hlt))]
  cases hpos : dictGet o.symbol s.positions with
  | some p =>
      have hp : p = p0 := by rw [hpos] at hp0; simpa using hp0
      subst hp
      simp [hside, hpos, dictGet_dictUpdate_self]
  | none =>
      rw [hpos] at hp0
      simp only [Option.getD_none] at hp0
      subst hp0
      simp [hside, hpos, dictGet_dictUpdate_self, dictGet_append_none, dictGet]

theorem execute_fill_sell_close (s : PaperExecutor) (oid : String) (o : Order)
    (fp : ℚ) (fq : Int) (t : Nat) (p0 : Position)
    (hside : o.side = "sell")
    (hp0 : dictGet o.symbol s.positions = some p0)
    (hq : 0 < p0.quantity) (hle : p0.quantity ≤ fq) :
    dictGet o.symbol (execute_fill s oid o fp fq t).positions =
      some { p0 with quantity := 0, avg_price := 0
                     realized_pnl := p0.realized_pnl +
                       (fp - p0.avg_price) * ((p0.quantity : Int) : ℚ) } := by
  unfold execute_fill
  rw [if_neg (by rintro ⟨hb, _⟩; rw [hside] at hb; exact absurd hb (by decide))]
  simp [hside, hp0, dictGet_dictUpdate_self, hq, min_eq_right hle, hle]

/-- C1 — Round-trip execution arithmetic: with starting cash 100000, zero
slippage and commission, a filled market BUY of 100 shares at 150.00 leaves
cash 85000.00, quantity 100, avg_price 150.00; a subsequent filled market
SELL of 100 at 155.00 leaves realized_pnl 500.00, cash 100500.00, quantity 0,
avg_price 0, and records equity 100500.00; and in general, opening (buy) and
fully closing (sell) a long position with zero commission yields
`realized_pnl = (exit_price - entry_price) * quantity`. -/
theorem claim_C1_roundtrip (s : PaperExecutor) (oid1 oid2 : String)
    (o1 o2 : Order) (pe px : ℚ) (q : Int) (t1 t2 : Nat) (p0 : Position)
    (hcomm : s.commission_rate = 0)
    (hb : o1.side = "buy") (hs2 : o2.side = "sell") (hsym : o2.symbol = o1.symbol)
    (hp0 : (dictGet o1.symbol s.positions).getD { symbol := o1.symbol } = p0)
    (hq0 : p0.quantity = 0) (hr0 : p0.realized_pnl = 0)
    (hqpos : 0 < q)
    (hcash : pe * (q : ℚ) ≤ s.cash) :
    (let e1 := (place_order (initExecutor 100000 0 0) "AAPL" "buy" 100 "market"
        none none none).1
     let e2 := process_price_update e1 "AAPL" 150 1
     let e3 := (place_order e2 "AAPL" "sell" 100 "market" none none none).1
     let e4 := process_price_update e3 "AAPL" 155 2
     e2.cash = 85000 ∧
     (dictGet "AAPL" e2.positions).map
        (fun p => (p.quantity, p.avg_price)) = some (100, 150) ∧
     e4.cash = 100500 ∧
     (dictGet "AAPL" e4.positions).map
        (fun p => (p.quantity, p.avg_price, p.realized_pnl)) = some (0, 0, 500) ∧
     (e4.equity_history.getLast?).map EquityRec.equity = some 100500) ∧
    (dictGet o1.symbol
      (execute_fill (execute_fill s oid1 o1 pe q t1) oid2 o2 px q t2).positions).map
        Position.realized_pnl = some ((px - pe) * (q : ℚ)) := by
  constructor
  · decide
  · have hcash' : pe * (q : ℚ) + pe * (q : ℚ) * s.commission_rate ≤ s.cash := by
      rw [hcomm]; simpa using hcash
    have h1 := execute_fill_buy_position s oid1 o1 pe q t1 p0 hb hcash' hp0
    have hqne : ((q : Int) : ℚ) ≠ 0 := by
      exact_mod_cast (by omega : (q : Int) ≠ 0)
    have havg : (if 0 < p0.quantity + q then
        ((p0.quantity : ℚ) * p0.avg_price + (q : ℚ) * pe) / ((p0.quantity + q : Int) : ℚ)
      else 0) = pe := by
      rw [hq0]
      simp only [zero_add, Int.cast_zero, zero_mul]
      rw [if_pos hqpos]
      exact mul_div_cancel_left₀ pe hqne
    have h2 := execute_fill_sell_close (execute_fill s oid1 o1 pe q t1) oid2 o2 px q t2
      { p0 with
        avg_price := if 0 < p0.quantity + q then
            ((p0.quantity : ℚ) * p0.avg_price + (q : ℚ) * pe) / ((p0.quantity + q : Int) : ℚ)
          else 0
        quantity := p0.quantity + q }
      hs2 (by rw [hsym]; exact h1.1) (by simp [hq0, hqpos]) (by simp [hq0])
    rw [hsym] at h2
    rw [h2]
    simp only [Option.map_some, Option.some.injEq, havg]
    rw [hr0, hq0]
    simp

/-- Witness for C1: a fresh single-symbol executor, buy 2 @ 10 then sell
2 @ 13, realizing `(13 - 10) * 2 = 6`. -/
theorem claim_C1_roundtrip_witness :
    ((PaperExecutor.commission_rate (initExecutor 50 0 0) = 0) ∧
      (0 : Int) < 2 ∧ (10 : ℚ) * ((2 : Int) : ℚ) ≤ (initExecutor 50 0 0).cash) ∧
    (dictGet "S"
      (execute_fill
        (execute_fill (initExecutor 50 0 0) "X1"
          { id := "X1", symbol := "S", side := "buy", quantity := 2
            order_type := "market" } 10 2 1)
        "X2"
        { id := "X2", symbol := "S", side := "sell", quantity := 2
          order_type := "market" } 13 2 2).positions).map
        Position.realized_pnl = some ((13 - 10) * ((2 : Int) : ℚ)) :=
  ⟨⟨rfl, by decide, by norm_num [initExecutor]⟩,
   (claim_C1_roundtrip (initExecutor 50 0 0) "X1" "X2"
      { id := "X1", symbol := "S", side := "buy", quantity := 2
        order_type := "market" }
      { id := "X2", symbol := "S", side := "sell", quantity := 2
        order_type := "market" }
      10 13 2 1 2 { symbol := "S" }
      rfl rfl rfl rfl rfl rfl rfl (by decide) (by norm_num [initExecutor])).2⟩

theorem execute_fill_positions_frame (s : PaperExecutor) (oid : String)
    (o : Order) (fp : ℚ) (fq : Int) (t : Nat) (sym : String) (pm : Position)
    (h : dictGet sym s.positions = some pm) :
    ∃ pm', dictGet sym (execute_fill s oid o fp fq t).positions = some pm' ∧
      pm'.last_price = pm.last_price ∧ pm'.unrealized_pnl = pm.unrealized_pnl := by
  unfold execute_fill
  by_cases hrej : o.side = "buy" ∧ s.cash < fp * (fq : ℚ) + fp * (fq : ℚ) * s.commission_rate
  · rw [if_pos hrej]
    exact ⟨pm, h, rfl, rfl⟩
  · rw [if_neg hrej]
    by_cases hos : o.symbol = sym
    · subst hos
      simp only [apply_ite PaperExecutor.positions, apply_ite (dictGet o.symbol)]
      simp [h, dictGet_dictUpdate_self]
      constructor <;> (repeat' split) <;> rfl
    · have hne : sym ≠ o.symbol := fun hc => hos hc.symm
      refine ⟨pm, ?_, rfl, rfl⟩
      simp only [apply_ite PaperExecutor.positions, dictGet_dictUpdate_ne sym o.symbol hne]
      by_cases hp : (dictGet o.symbol s.positions).isSome
      · simp [hp, h]
      · simp [hp, dictGet_append_some sym _ _ pm h]

theorem check_order_fill_positions_frame (s : PaperExecutor) (oid : String)
    (o : Order) (pr : ℚ) (t : Nat) (sym : String) (pm : Position)
    (h : dictGet sym s.positions = some pm) :
    ∃ pm', dictGet sym (check_order_fill s oid o pr t).positions = some pm' ∧
      pm'.last_price = pm.last_price ∧ pm'.unrealized_pnl = pm.unrealized_pnl := by
  simp only [check_order_fill]
  cases hv : (if o.order_type = "market" then some (pr, o.quantity)
    else if o.order_type = "limit" then
      match o.limit_price with
      | some lp =>
          if o.side = "buy" ∧ pr ≤ lp then some (lp, o.quantity)
          else if o.side = "sell" ∧ pr ≥ lp then some (lp, o.quantity)
          else none
      | none => none
    else none) with
  | none => exact ⟨pm, h, rfl, rfl⟩
  | some pq =>
      obtain ⟨fp, fq⟩ := pq
      exact execute_fill_positions_frame s oid o _ fq t sym pm h

theorem fill_step_positions_frame (sym : String) (price L U : ℚ) (t : Nat)
    (st : PaperExecutor) (oid : String)
    (h : ∃ pm, dictGet sym st.positions = some pm ∧
      pm.last_price = L ∧ pm.unrealized_pnl = U) :
    ∃ pm, dictGet sym (fill_step sym price t st oid).positions = some pm ∧
      pm.last_price = L ∧ pm.unrealized_pnl = U := by
  obtain ⟨pm, hget, hl, hu⟩ := h
  unfold fill_step
  cases ho : dictGet oid st.orders with
  | none => exact ⟨pm, hget, hl, hu⟩
  | some o =>
      show ∃ pm, dictGet sym
        (if o.symbol = sym ∧ o.status = "pending" then
          check_order_fill st oid o price t else st).positions = some pm ∧
        pm.last_price = L ∧ pm.unrealized_pnl = U
      by_cases hc : o.symbol = sym ∧ o.status = "pending"
      · rw [if_pos hc]
        obtain ⟨pm', hg', hl', hu'⟩ :=
          check_order_fill_positions_frame st oid o price t sym pm hget
        exact ⟨pm', hg', hl'.trans hl, hu'.trans hu⟩
      · rw [if_neg hc]
        exact ⟨pm, hget, hl, hu⟩

theorem unreal_update_props (pm : Position) (price u : ℚ)
    (hl2 : pm.last_price = price) (hu2 : pm.unrealized_pnl = u) :
    ∃ p', (if pm.quantity ≠ 0 ∧ pm.last_price > 0 then
            if pm.quantity > 0 then
              { pm with unrealized_pnl := (pm.last_price - pm.avg_price) * (pm.quantity : ℚ) }
            else
              { pm with unrealized_pnl := (pm.avg_price - pm.last_price) * ((pm.quantity.natAbs : Nat) : ℚ) }
          else pm) = p' ∧
      p'.last_price = price ∧
      (p'.quantity ≠ 0 → 0 < price →
        p'.unrealized_pnl = (price - p'.avg_price) * (p'.quantity : ℚ)) ∧
      (p'.quantity = 0 → p'.unrealized_pnl = u) := by
  by_cases h1 : pm.quantity ≠ 0 ∧ pm.last_price > 0
  · rw [if_pos h1]
    by_cases h2 : pm.quantity > 0
    · rw [if_pos h2]
      refine ⟨_, rfl, hl2, fun _ _ => by rw [hl2], fun hz => absurd hz (by simpa using h1.1)⟩
    · rw [if_neg h2]
      have hneg : pm.quantity < 0 := lt_of_le_of_ne (not_lt.mp h2) h1.1
      have habs : ((pm.quantity.natAbs : Nat) : ℚ) = -(pm.quantity : ℚ) := by
        rw [Int.cast_natAbs, abs_of_neg hneg]
        push_cast
        ring
      refine ⟨_, rfl, hl2, fun _ _ => ?_, fun hz => absurd hz (by simpa using h1.1)⟩
      show (pm.avg_price - pm.last_price) * ((pm.quantity.natAbs : Nat) : ℚ) =
        (price - pm.avg_price) * (pm.quantity : ℚ)
      rw [habs, hl2]
      ring
  · rw [if_neg h1]
    refine ⟨pm, rfl, hl2, fun hq hpr => ?_, fun _ => hu2⟩
    push_neg at h1
    exact absurd hpr (not_lt.mpr (hl2 ▸ h1 hq))

/-- C5 (amended) — Mark-to-market recompute: a price update for `symbol`
sets the existing position's `last_price` to the update price, and after the
update every position on that symbol with `quantity ≠ 0` and a positive price
has `unrealized_pnl = (last_price - avg_price) * quantity` (sign-aware for
shorts); but a position whose quantity is 0 after the update is **skipped**
by the recompute and keeps its previous (possibly stale, non-zero)
`unrealized_pnl` — it is not reset to 0. -/
theorem claim_C5_mark_to_market (s : PaperExecutor) (sym : String)
    (price : ℚ) (t : Nat) (p : Position)
    (hp : dictGet sym s.positions = some p) :
    ∃ p', dictGet sym (process_price_update s sym price t).positions = some p' ∧
      p'.last_price = price ∧
      (p'.quantity ≠ 0 → 0 < price →
        p'.unrealized_pnl = (price - p'.avg_price) * (p'.quantity : ℚ)) ∧
      (p'.quantity = 0 → p'.unrealized_pnl = p.unrealized_pnl) := by
  have ht : dictGet sym (touch_last_price s sym price).positions =
      some { p with last_price := price } := by
    unfold touch_last_price
    rw [if_pos (by rw [hp]; rfl)]
    simp [dictGet_dictUpdate_self, hp]
  have hfold := foldl_preserves (fill_step sym price t)
    (fun st => ∃ pm, dictGet sym st.positions = some pm ∧
      pm.last_price = price ∧ pm.unrealized_pnl = p.unrealized_pnl)
    (fun st a hst => fill_step_positions_frame sym price price p.unrealized_pnl t st a hst)
    ((touch_last_price s sym price).orders.map Prod.fst)
    (touch_last_price s sym price)
    ⟨{ p with last_price := price }, ht, rfl, rfl⟩
  obtain ⟨pm, hg2, hl2, hu2⟩ := hfold
  have hproc : (process_price_update s sym price t).positions =
      mapVals (fun q =>
        if q.quantity ≠ 0 ∧ q.last_price > 0 then
          if q.quantity > 0 then
            { q with unrealized_pnl := (q.last_price - q.avg_price) * (q.quantity : ℚ) }
          else
            { q with unrealized_pnl := (q.avg_price - q.last_price) * ((q.quantity.natAbs : Nat) : ℚ) }
        else q)
        (((touch_last_price s sym price).orders.map Prod.fst).foldl
          (fill_step sym price t) (touch_last_price s sym price)).positions := rfl
  obtain ⟨p', hpe, hl', hrec, hstale⟩ := unreal_update_props pm price p.unrealized_pnl hl2 hu2
  refine ⟨p', ?_, hl', hrec, hstale⟩
  rw [hproc, dictGet_mapVals, hg2]
  simpa using congrArg some hpe

/-- Witness for C5: a long position 10 @ 5 marked at price 7 gets
`last_price = 7` and the recompute semantics of the amended claim. -/
theorem claim_C5_mark_to_market_witness :
    ∃ p', dictGet "S"
      (process_price_update
        { starting_cash := 100, cash := 100
          positions := [("S", { symbol := "S", quantity := 10, avg_price := 5 })] }
        "S" 7 1).positions = some p' ∧
      p'.last_price = 7 ∧
      (p'.quantity ≠ 0 → (0 : ℚ) < 7 →
        p'.unrealized_pnl = (7 - p'.avg_price) * (p'.quantity : ℚ)) ∧
      (p'.quantity = 0 →
        p'.unrealized_pnl = Position.unrealized_pnl { symbol := "S", quantity := 10, avg_price := 5 }) :=
  claim_C5_mark_to_market
    { starting_cash := 100, cash := 100
      positions := [("S", { symbol := "S", quantity := 10, avg_price := 5 })] }
    "S" 7 1 { symbol := "S", quantity := 10, avg_price := 5 } (by decide)

/-- Counterexample to C5 as stated: buy 100 @ 150, mark at 160 (unrealized
becomes 1000), then a sell fill at 155 closes the position during a price
update — after that update the position has quantity 0 but its
`unrealized_pnl` is still the stale 1000, not the 0 the claim's recompute
formula demands. -/
theorem claim_C5_counterexample :
    (let c1 := (place_order (initExecutor 100000 0 0) "AAPL" "buy" 100 "market"
        none none none).1
     let c2 := process_price_update c1 "AAPL" 150 1
     let c3 := process_price_update c2 "AAPL" 160 2
     let c4 := (place_order c3 "AAPL" "sell" 100 "market" none none none).1
     let c5 := process_price_update c4 "AAPL" 155 3
     (dictGet "AAPL" c5.positions).map
        (fun p => (p.quantity, p.unrealized_pnl)) = some (0, 1000)) ∧
    (1000 : ℚ) ≠ 0 := by
  constructor
  · decide
  · norm_num

/-- C6 (amended) — Order validation is synchronous: `place_order` with
non-positive quantity, or side outside {buy, sell}, or kind=limit without a
limit price, returns a `ValidationError` (`ValueError` in the source) at the
call; no order is created (the order dict is unchanged) and cash, positions,
trades and equity history are untouched — but the call is **not** entirely
state-free: `generate_order_id` runs before validation, so `order_id_counter`
is incremented even on the failing path. -/
theorem claim_C6_validation (s : PaperExecutor) (symbol side : String)
    (quantity : Int) (order_type : String)
    (limit_price stop_loss take_profit : Option ℚ)
    (hbad : ¬ (side = "buy" ∨ side = "sell") ∨
      (order_type = "limit" ∧ limit_price = none) ∨ quantity ≤ 0) :
    (∃ e, (place_order s symbol side quantity order_type limit_price
        stop_loss take_profit).2 = .error e) ∧
    (place_order s symbol side quantity order_type limit_price
        stop_loss take_profit).1.orders = s.orders ∧
    (place_order s symbol side quantity order_type limit_price
        stop_loss take_profit).1.cash = s.cash ∧
    (place_order s symbol side quantity order_type limit_price
        stop_loss take_profit).1.positions = s.positions ∧
    (place_order s symbol side quantity order_type limit_price
        stop_loss take_profit).1.trades = s.trades ∧
    (place_order s symbol side quantity order_type limit_price
        stop_loss take_profit).1.equity_history = s.equity_history ∧
    (place_order s symbol side quantity order_type limit_price
        stop_loss take_profit).1.order_id_counter = s.order_id_counter + 1 := by
  unfold place_order
  by_cases h1 : ¬ (side = "buy" ∨ side = "sell")
  · rw [if_pos h1]
    exact ⟨⟨.invalidSide, rfl⟩, rfl, rfl, rfl, rfl, rfl, rfl⟩
  · rw [if_neg h1]
    by_cases h2 : order_type = "limit" ∧ limit_price = none
    · rw [if_pos h2]
      exact ⟨⟨.missingLimitPrice, rfl⟩, rfl, rfl, rfl, rfl, rfl, rfl⟩
    · rw [if_neg h2]
      by_cases h3 : quantity ≤ 0
      · rw [if_pos h3]
        exact ⟨⟨.nonPositiveQuantity, rfl⟩, rfl, rfl, rfl, rfl, rfl, rfl⟩
      · rcases hbad with hb | hb | hb
        · exact absurd hb h1
        · exact absurd hb h2
        · exact absurd hb h3

/-- Witness for C6: placing a zero-quantity market buy fails with a
`ValidationError`, leaves orders/cash/positions untouched, and bumps the id
counter. -/
theorem claim_C6_validation_witness :
    (∃ e, (place_order (initExecutor 100000 0 0) "AAPL" "buy" 0 "market"
        none none none).2 = .error e) ∧
    (place_order (initExecutor 100000 0 0) "AAPL" "buy" 0 "market"
        none none none).1.orders = (initExecutor 100000 0 0).orders ∧
    (place_order (initExecutor 100000 0 0) "AAPL" "buy" 0 "market"
        none none none).1.cash = (initExecutor 100000 0 0).cash ∧
    (place_order (initExecutor 100000 0 0) "AAPL" "buy" 0 "market"
        none none none).1.positions = (initExecutor 100000 0 0).positions ∧
    (place_order (initExecutor 100000 0 0) "AAPL" "buy" 0 "market"
        none none none).1.trades = (initExecutor 100000 0 0).trades ∧
    (place_order (initExecutor 100000 0 0) "AAPL" "buy" 0 "market"
        none none none).1.equity_history = (initExecutor 100000 0 0).equity_history ∧
    (place_order (initExecutor 100000 0 0) "AAPL" "buy" 0 "market"
        none none none).1.order_id_counter = (initExecutor 100000 0 0).order_id_counter + 1 :=
  claim_C6_validation (initExecutor 100000 0 0) "AAPL" "buy" 0 "market"
    none none none (Or.inr (Or.inr (by decide)))

/-- Counterexample to C6 as stated: the failing `place_order` call does
mutate state — the order-id counter advances from 0 to 1 even though the
order is refused, because `generate_order_id` runs before validation. -/
theorem claim_C6_counterexample :
    (place_order (initExecutor 100000 0 0) "AAPL" "buy" 0 "market"
        none none none).2 = .error PlaceError.nonPositiveQuantity ∧
    (place_order (initExecutor 100000 0 0) "AAPL" "buy" 0 "market"
        none none none).1.order_id_counter = 1 ∧
    (initExecutor 100000 0 0).order_id_counter = 0 ∧
    (place_order (initExecutor 100000 0 0) "AAPL" "buy" 0 "market"
        none none none).1 ≠ initExecutor 100000 0 0 := by
  refine ⟨rfl, by decide, by decide, ?_⟩
  intro hc
  have : (place_order (initExecutor 100000 0 0) "AAPL" "buy" 0 "market"
      none none none).1.order_id_counter = (initExecutor 100000 0 0).order_id_counter := by
    rw [hc]
  simp [place_order, initExecutor, generate_order_id] at this

/-- C7 (amended) — Summary-metric definitions with zero-trade guard: for
every finished trade list, the reported `win_rate` equals
`winning_trades / total_trades * 100` (a percentage between 0 and 100, not
the raw ratio), `average_trade_pnl` equals `total_pnl / total_trades`, and
both evaluate to 0 (not NaN or a division error) when there are no trades. -/
theorem claim_C7_summary_metrics (pnls : List ℚ) :
    win_rate pnls = (if pnls.length = 0 then 0
      else ((pnls.filter (fun x => 0 < x)).length : ℚ) / (pnls.length : ℚ) * 100) ∧
    average_trade_pnl pnls =
      (if pnls.length = 0 then 0 else pnls.sum / (pnls.length : ℚ)) ∧
    0 ≤ win_rate pnls ∧ win_rate pnls ≤ 100 ∧
    win_rate [] = 0 ∧ average_trade_pnl [] = 0 := by
  by_cases he : pnls.length = 0
  · have hnil : pnls = [] := List.length_eq_zero.mp he
    subst hnil
    simp [win_rate, average_trade_pnl, winning_trades, total_pnl]
  · have hp : 0 < pnls.length := Nat.pos_of_ne_zero he
    have h1 : ((winning_trades pnls : Nat) : ℚ) ≤ (pnls.length : ℚ) := by
      exact_mod_cast List.length_filter_le _ _
    have hd : (0 : ℚ) < (pnls.length : ℚ) := by exact_mod_cast hp
    refine ⟨by simp [win_rate, winning_trades, hp, he],
      by simp [average_trade_pnl, total_pnl, hp, he], ?_, ?_,
      by simp [win_rate], by simp [average_trade_pnl]⟩
    · rw [win_rate, if_pos hp]
      positivity
    · rw [win_rate, if_pos hp]
      have hr : ((winning_trades pnls : Nat) : ℚ) / (pnls.length : ℚ) ≤ 1 :=
        (div_le_one hd).mpr h1
      calc ((winning_trades pnls : Nat) : ℚ) / (pnls.length : ℚ) * 100
          ≤ 1 * 100 := mul_le_mul_of_nonneg_right hr (by norm_num)
        _ = 100 := by norm_num

/-- Counterexample to C7 as stated: with one winning and one losing trade,
the code reports `win_rate = 50` (a percentage), not the claimed
`winning_trades / total_trades = 1/2`. -/
theorem claim_C7_counterexample :
    win_rate [1, -1] = 50 ∧ winning_trades [1, -1] = 1 ∧
    ([1, -1] : List ℚ).length = 2 ∧ (50 : ℚ) ≠ 1 / 2 :=
  ⟨by decide, by decide, by decide, by norm_num⟩

/-- C9 (amended) — Empty bar source: when the fetched data is `None` or an
empty bar list, `run()` returns `None` (it does **not** raise a
`NoDataError` — no such exception exists in the code); the strategy loop
never runs, the tracking state is untouched and nothing is persisted. -/
theorem claim_C9_empty_run
    (onBar : StrategyState → Bar → Except String StrategyState)
    (cap : ℚ) (rid : String) (st : StrategyState) :
    run onBar cap rid none st = (st, .ok none) ∧
    run onBar cap rid (some []) st = (st, .ok none) := ⟨rfl, rfl⟩

/-- Counterexample to C9 as stated: on an empty bar source `run` returns
normally with `None` and persists nothing — the result is an `ok` value,
not a raised `NoDataError`. -/
theorem claim_C9_counterexample :
    (run (fun st _ => .ok st) 10000 "r1" (some []) {}).2 = .ok none ∧
    (run (fun st _ => .ok st) 10000 "r1" (some []) {}).1.saved = [] ∧
    (Except.ok (none : Option String) : Except String (Option String)) ≠
      .error "NoDataError" :=
  ⟨rfl, rfl, fun h => by simp at h⟩

theorem sharpe_returns_zip (ec : List ℚ) :
    sharpe_returns ec = (ec.zip ec.tail).map
      (fun pc => if pc.1 > 0 then (pc.2 - pc.1) / pc.1 else 0) := by
  induction ec with
  | nil => rfl
  | cons a tail ih =>
      cases tail with
      | nil => rfl
      | cons b rest => simp [sharpe_returns, ih]

theorem sharpe_returns_eq_nil (ec : List ℚ) :
    sharpe_returns ec = [] ↔ ec.length ≤ 1 := by
  cases ec with
  | nil => simp [sharpe_returns]
  | cons a tail =>
      cases tail with
      | nil => simp [sharpe_returns]
      | cons b rest => simp [sharpe_returns]

/-- C8 (amended) — Sharpe-ratio algorithm: the reported `sharpe_ratio` forms
one period-over-period return for **every** consecutive pair of equity
points, with value `(e[i]-e[i-1])/e[i-1]` when `e[i-1] > 0` and value 0
(appended, not skipped) when `e[i-1] ≤ 0`; it then equals
`mean(returns) / stdev(returns)` with the population standard deviation, and
is 0 when no consecutive pair exists or the standard deviation is 0 (no
annualization). -/
theorem claim_C8_sharpe (ec : List ℚ) :
    sharpe_ratio ec = sharpe_ratio_amended ec := by
  unfold sharpe_ratio sharpe_ratio_amended
  rw [← sharpe_returns_zip]
  by_cases hlen : ec.length > 1
  · have hne : sharpe_returns ec ≠ [] := by
      rw [ne_eq, sharpe_returns_eq_nil]
      omega
    rw [if_pos hlen, if_pos hne, if_neg hne]
  · have hnil : sharpe_returns ec = [] := (sharpe_returns_eq_nil ec).mpr (by omega)
    rw [if_neg hlen, if_pos hnil]

/-- Counterexample to C8 as stated: on the equity curve `[0, 100, 200]` the
code appends a 0 return for the `0 → 100` step (it does not skip the pair),
yielding returns `[0, 1]` and `sharpe_ratio = 1`, while the claimed
skip-semantics leaves a single return and therefore the value 0. -/
theorem claim_C8_counterexample :
    sharpe_ratio [0, 100, 200] = 1 ∧
    sharpe_ratio_specified [0, 100, 200] = 0 ∧
    (1 : ℝ) ≠ 0 := by
  refine ⟨?_, ?_, by norm_num⟩
  · have hrs : sharpe_returns [0, 100, 200] = [0, 1] := by
      norm_num [sharpe_returns]
    have hmean : mean_return [0, 1] = 1 / 2 := by
      norm_num [mean_return]
    have hvar : variance_return [0, 1] = 1 / 4 := by
      norm_num [variance_return, mean_return]
    unfold sharpe_ratio
    rw [if_pos (by norm_num), if_pos (by rw [hrs]; simp), hrs, hmean, hvar]
    have hsq : Real.sqrt (((1 / 4 : ℚ) : ℝ)) = 1 / 2 := by
      rw [show ((1 / 4 : ℚ) : ℝ) = (1 / 2) ^ 2 by push_cast; norm_num,
        Real.sqrt_sq (by norm_num)]
    rw [hsq, if_pos (by norm_num)]
    push_cast
    norm_num
  · unfold sharpe_ratio_specified
    norm_num [List.zip, List.zipWith, List.filterMap]

end Claims

end Backtester
